import Mathlib

/-!
# TaskFlow server — shallow embedding and verification

A shallow embedding of the TaskFlow collaborative task-list backend
(`src/server.js`, the authoritative second variant of the file) into Lean 4,
together with theorems settling the frozen specification claims.

Modelling conventions:
* MongoDB collections are Lean lists of documents; `insertOne` appends,
  `updateOne {_id}` / `deleteOne {_id}` act on documents matching the id
  (document ids are unique in MongoDB, so the map/filter formulations below
  coincide with the single-document operations).
* Store-assigned ids, random tokens, random invite codes and random
  notification ids (`crypto.randomBytes`, `ObjectId`) are external sources of
  fresh values; each operation that consumes one takes it as an explicit
  argument.
* `createdAt` timestamps (`new Date()`) are opaque external clock reads that
  no server logic ever inspects; they are not carried in the model.
* Nullable JavaScript fields become `Option`; JS truthiness of a string field
  is `≠ none` (stored ids are non-empty hex strings), except where the code's
  handling of the empty string matters, which is modelled explicitly.
-/

namespace TaskFlow

/-- A notification record embedded in a user's mailbox
(`{id, type, text, taskId, createdAt}` pushed by the handlers). -/
structure Notification where
  nid : String
  ntype : String
  text : String
  taskId : String
  deriving Repr, DecidableEq

/-- A document of the `users` collection (`POST /api/users/login` insert shape:
name, color, photo, token, groupId, solo, colorOverrides, notifications,
theme). -/
structure User where
  id : String
  name : String
  color : String
  photo : Option String
  token : String
  groupId : Option String
  solo : Bool
  colorOverrides : List (String × String)
  notifications : List Notification
  theme : String
  deriving Repr, DecidableEq

/-- A document of the `groups` collection (`POST /api/groups` insert shape). -/
structure Group where
  id : String
  name : String
  photo : Option String
  creatorId : String
  memberIds : List String
  inviteCode : String
  deriving Repr, DecidableEq

/-- A document of the `tasks` collection.  The server is schema-agnostic for
task content; the fields it reasons about (`title`, `assignee`, `done`,
`groupId`, `ownerId`, `creatorId`) are explicit, every other client-supplied
field lives in the opaque `extra` association list. -/
structure Task where
  id : String
  title : String
  assignee : Option String
  done : Bool
  groupId : Option String
  ownerId : Option String
  creatorId : String
  extra : List (String × String)
  deriving Repr, DecidableEq

/-- The document store: the three collections the claims touch. -/
structure DB where
  users : List User
  groups : List Group
  tasks : List Task
  deriving Repr, DecidableEq

/-- Error taxonomy of the handlers (`res.status(4xx).json({error})`). -/
inductive ApiError where
  | badRequest (msg : String)
  | notFound (msg : String)
  | forbidden (msg : String)
  | internal (msg : String)
  deriving Repr, DecidableEq

deriving instance DecidableEq for Except

/-- HTTP status code of an error response. -/
def ApiError.status : ApiError → Nat
  | .badRequest _ => 400
  | .notFound _ => 404
  | .forbidden _ => 403
  | .internal _ => 500

/-- JavaScript `x || null` on an optional string (empty string is falsy). -/
def jsOrNull : Option String → Option String
  | none => none
  | some s => if s = "" then none else some s

/-- JavaScript `String.prototype.trim()`, modelled over the character list
(extensionally the same as Lean's `String.trim`, which is phrased with
well-founded recursion). -/
def jsTrim (s : String) : String :=
  ⟨((s.data.dropWhile Char.isWhitespace).reverse.dropWhile Char.isWhitespace).reverse⟩

/-- JavaScript `String.prototype.toUpperCase()` for the invite-code alphabet,
modelled over the character list. -/
def jsToUpper (s : String) : String :=
  ⟨s.data.map Char.toUpper⟩

def findUserByName (st : DB) (name : String) : Option User :=
  st.users.find? (fun u => u.name == name)

def findGroupById (st : DB) (gid : String) : Option Group :=
  st.groups.find? (fun g => g.id == gid)

def findGroupByCode (st : DB) (code : String) : Option Group :=
  st.groups.find? (fun g => g.inviteCode == code)

def findTaskById (st : DB) (tid : String) : Option Task :=
  st.tasks.find? (fun t => t.id == tid)

/-- `updateOne({_id: uid}, {$push: {notifications: n}})`: append `n` to the
mailbox of the user document with id `uid`, leaving every other document
unchanged. -/
def pushNotif (users : List User) (uid : String) (n : Notification) : List User :=
  users.map (fun v =>
    if v.id == uid then { v with notifications := v.notifications ++ [n] } else v)

/-- Encoding of an optional string field in a response field list. -/
def optEnc : Option String → String
  | none => "null"
  | some s => s

def boolEnc : Bool → String
  | true => "true"
  | false => "false"

def pairsEnc (l : List (String × String)) : String :=
  String.intercalate "," (l.map (fun kv => kv.1 ++ ":" ++ kv.2))

def notifEnc (n : Notification) : String :=
  n.nid ++ "|" ++ n.ntype ++ "|" ++ n.text ++ "|" ++ n.taskId

def notifsEnc (ns : List Notification) : String :=
  String.intercalate ";" (ns.map notifEnc)

/-- The user object a handler sends after `const { token: _t, ...user } = u`:
every stored field except the bearer token, as a field-name/value list. -/
def safeUserFields (u : User) : List (String × String) :=
  [("_id", u.id), ("name", u.name), ("color", u.color), ("photo", optEnc u.photo),
   ("groupId", optEnc u.groupId), ("solo", boolEnc u.solo),
   ("colorOverrides", pairsEnc u.colorOverrides),
   ("notifications", notifsEnc u.notifications), ("theme", u.theme)]

/-- Response shape of `POST /api/users/login`:
`{token, userId, needsSetup}`. -/
structure LoginResp where
  token : String
  userId : String
  needsSetup : Bool
  deriving Repr, DecidableEq

/-- The document inserted for a first-time username
(`POST /api/users/login`, new-user branch). -/
def newUser (name tok uid : String) : User :=
  { id := uid, name := name, color := "#6C63FF", photo := none, token := tok,
    groupId := none, solo := false, colorOverrides := [], notifications := [],
    theme := "light" }

/-- `POST /api/users/login`: look the trimmed username up; create the user on
first sight (consuming a fresh token and store id); answer with the user's
token either way. -/
def login (st : DB) (username : String) (freshTok freshId : String) :
    Except ApiError (DB × LoginResp) :=
  let trimmed := jsTrim username
  if trimmed = "" then .error (.badRequest "Name fehlt")
  else
    match findUserByName st trimmed with
    | some u => .ok (st, ⟨u.token, u.id, u.groupId.isNone && !u.solo⟩)
    | none =>
      let u := newUser trimmed freshTok freshId
      .ok ({ st with users := st.users ++ [u] }, ⟨freshTok, freshId, true⟩)

/-- `GET /api/users/me`: the authenticated user's document without the token. -/
def meResponse (u : User) : List (String × String) :=
  safeUserFields u

/-- Body of `PATCH /api/users/me`: each allowed key
(`name,color,photo,colorOverrides,solo,theme`) is copied verbatim into the
`$set` update when present in the request body. -/
structure UserPatch where
  name : Option String
  color : Option String
  photo : Option (Option String)
  colorOverrides : Option (List (String × String))
  solo : Option Bool
  theme : Option String
  deriving Repr, DecidableEq

def applyUserPatch (u : User) (p : UserPatch) : User :=
  { u with
    name := p.name.getD u.name
    color := p.color.getD u.color
    photo := p.photo.getD u.photo
    colorOverrides := p.colorOverrides.getD u.colorOverrides
    solo := p.solo.getD u.solo
    theme := p.theme.getD u.theme }

/-- `PATCH /api/users/me`: `$set` the present fields on the caller's document,
re-fetch it, answer with the updated document sans token.  The auth middleware
guarantees the caller's document is in the store, so the re-fetch succeeds. -/
def updateMe (st : DB) (u : User) (p : UserPatch) : DB × List (String × String) :=
  let users' := st.users.map (fun v => if v.id == u.id then applyUserPatch v p else v)
  let resp :=
    match users'.find? (fun v => v.id == u.id) with
    | some v => safeUserFields v
    | none => []
  ({ st with users := users' }, resp)

/-- First phase of `DELETE /api/users/me`: refuse (400) a creator leaving
behind other members; otherwise pull the caller from their group's member
list (a no-op when the caller has no group or the group is gone). -/
def deleteMeGroupStep (st : DB) (u : User) : Except ApiError (List Group) :=
  match u.groupId with
  | none => .ok st.groups
  | some gid =>
    match findGroupById st gid with
    | none => .ok st.groups
    | some g =>
      if g.creatorId == u.id && g.memberIds.length > 1 then
        .error (.badRequest "Gruppe erst löschen.")
      else
        .ok (st.groups.map (fun x =>
          if x.id == gid then
            { x with memberIds := x.memberIds.filter (fun m => m != u.id) }
          else x))

/-- `DELETE /api/users/me`: after the group step, delete the tasks matching
`{assignee: uid, groupId: u.groupId || null}` and delete the user document. -/
def deleteMe (st : DB) (u : User) : Except ApiError DB :=
  match deleteMeGroupStep st u with
  | .error e => .error e
  | .ok groups' =>
    .ok { users := st.users.filter (fun v => v.id != u.id),
          groups := groups',
          tasks := st.tasks.filter (fun t =>
            !(t.assignee == some u.id && t.groupId == jsOrNull u.groupId)) }

/-- `GET /api/users`: all members of the caller's group (token projected
away), or the caller alone when not in a group. -/
def listUsers (st : DB) (u : User) : List (List (String × String)) :=
  match u.groupId with
  | some gid =>
    match findGroupById st gid with
    | some g => (st.users.filter (fun v => g.memberIds.contains v.id)).map safeUserFields
    | none => []
  | none => [safeUserFields u]

/-- `POST /api/groups`: require a non-empty trimmed name, insert the group
with the caller as creator and sole member (consuming a fresh store id and
invite code), then point the caller's `groupId` at it and clear `solo`. -/
def createGroup (st : DB) (u : User) (name : String) (photo : Option String)
    (gid code : String) : Except ApiError (DB × Group) :=
  if jsTrim name = "" then .error (.badRequest "Name fehlt")
  else
    let g : Group := { id := gid, name := jsTrim name, photo := jsOrNull photo,
                       creatorId := u.id, memberIds := [u.id], inviteCode := code }
    let users' := st.users.map (fun v =>
      if v.id == u.id then { v with groupId := some gid, solo := false } else v)
    .ok ({ st with groups := st.groups ++ [g], users := users' }, g)

/-- `POST /api/groups/join`: case-insensitive invite-code lookup (404 when
absent); push the caller into `memberIds` unless already listed; set the
caller's `groupId` and clear `solo`. -/
def joinGroup (st : DB) (u : User) (code : String) : Except ApiError (DB × Group) :=
  match findGroupByCode st (jsToUpper code) with
  | none => .error (.notFound "Gruppe nicht gefunden")
  | some g =>
    let groups' :=
      if g.memberIds.contains u.id then st.groups
      else st.groups.map (fun x =>
        if x.id == g.id then { x with memberIds := x.memberIds ++ [u.id] } else x)
    let users' := st.users.map (fun v =>
      if v.id == u.id then { v with groupId := some g.id, solo := false } else v)
    .ok ({ st with groups := groups', users := users' }, g)

/-- Body of `PATCH /api/groups/mine`: a truthy `name` is trimmed and set, a
present `photo` is set verbatim. -/
structure GroupPatch where
  name : Option String
  photo : Option (Option String)
  deriving Repr, DecidableEq

/-- `PATCH /api/groups/mine`: 500 when the caller has no group (the handler
builds an ObjectId from `null`, which throws); 403 when the group is gone or
the caller is not its creator; otherwise `$set` name/photo. -/
def updateGroupMine (st : DB) (u : User) (p : GroupPatch) : Except ApiError DB :=
  match u.groupId with
  | none => .error (.internal "ObjectId null")
  | some gid =>
    match findGroupById st gid with
    | none => .error (.forbidden "Kein Zugriff")
    | some g =>
      if g.creatorId != u.id then .error (.forbidden "Kein Zugriff")
      else
        let g' := { g with
          name := match p.name with
                  | some n => if n = "" then g.name else jsTrim n
                  | none => g.name,
          photo := p.photo.getD g.photo }
        .ok { st with groups := st.groups.map (fun x => if x.id == gid then g' else x) }

/-- `DELETE /api/groups/mine`: 500 when the caller has no group (ObjectId of
`null` throws); 403 when the group is gone or the caller is not its creator;
otherwise clear every member's `groupId`, delete all tasks scoped to the
group, and delete the group document.  No member-count check. -/
def deleteGroupMine (st : DB) (u : User) : Except ApiError DB :=
  match u.groupId with
  | none => .error (.internal "ObjectId null")
  | some gid =>
    match findGroupById st gid with
    | none => .error (.forbidden "Kein Zugriff")
    | some g =>
      if g.creatorId != u.id then .error (.forbidden "Kein Zugriff")
      else
        .ok { users := st.users.map (fun v =>
                if g.memberIds.contains v.id then { v with groupId := none } else v),
              groups := st.groups.filter (fun x => x.id != g.id),
              tasks := st.tasks.filter (fun t => t.groupId != some g.id) }

/-- `POST /api/groups/leave`: 400 when not in a group; 400 when the caller is
the creator and other members remain; otherwise pull the caller from
`memberIds` and clear the caller's `groupId`. -/
def leaveGroup (st : DB) (u : User) : Except ApiError DB :=
  match u.groupId with
  | none => .error (.badRequest "Nicht in Gruppe")
  | some gid =>
    let creatorBlocked :=
      match findGroupById st gid with
      | some g => g.creatorId == u.id && g.memberIds.length > 1
      | none => false
    if creatorBlocked then .error (.badRequest "Zuerst Gruppe löschen.")
    else
      .ok { st with
        groups := st.groups.map (fun x =>
          if x.id == gid then
            { x with memberIds := x.memberIds.filter (fun m => m != u.id) }
          else x),
        users := st.users.map (fun v =>
          if v.id == u.id then { v with groupId := none } else v) }

/-- The Mongo filter object built by `scope(user)`: a required `groupId` value
(`some g` or `null`) and an optional required `ownerId`. -/
structure TaskFilter where
  fGroupId : Option String
  fOwnerId : Option String
  deriving Repr, DecidableEq

/-- `scope(user)`: `{groupId: user.groupId}` when the user has a group, else
`{groupId: null, ownerId: user._id}`. -/
def scope (u : User) : TaskFilter :=
  match u.groupId with
  | some g => { fGroupId := some g, fOwnerId := none }
  | none => { fGroupId := none, fOwnerId := some u.id }

/-- Whether a task document matches a scope filter. -/
def Task.matchesFilter (t : Task) (f : TaskFilter) : Bool :=
  t.groupId == f.fGroupId &&
    (match f.fOwnerId with
     | none => true
     | some uid => t.ownerId == some uid)

/-- `GET /api/tasks`: the tasks matching `scope(req.user)`. -/
def listTasks (st : DB) (u : User) : List Task :=
  st.tasks.filter (fun t => t.matchesFilter (scope u))

/-- Body of `POST /api/tasks`: the fields the server reasons about plus the
opaque rest.  The task is built as `{...body, ...scope(user), creatorId,
createdAt}`, so the scope spread overrides any body-supplied `groupId`
(and, for solo creators, `ownerId`). -/
structure TaskFields where
  title : String
  assignee : Option String
  done : Bool
  groupId : Option String
  ownerId : Option String
  extra : List (String × String)
  deriving Repr, DecidableEq

def assignedNotifText (actorName title : String) : String :=
  "📋 " ++ actorName ++ " hat dir eine neue Aufgabe zugewiesen: „" ++ title ++ "\""

/-- `POST /api/tasks`: insert the body stamped with the creator's scope and
`creatorId` (consuming a fresh store id and a fresh notification id); when
`assignee` is truthy, not the sentinel `all` and not the creator, push one
`task_assigned` notification to the assignee's mailbox. -/
def createTask (st : DB) (u : User) (b : TaskFields) (tid nid : String) : DB × Task :=
  let sc := scope u
  let t : Task :=
    { id := tid, title := b.title, assignee := b.assignee, done := b.done,
      groupId := sc.fGroupId,
      ownerId := match sc.fOwnerId with
                 | some uid => some uid
                 | none => b.ownerId,
      creatorId := u.id, extra := b.extra }
  let users' :=
    match t.assignee with
    | some a =>
      if a != "" && a != "all" && a != u.id then
        pushNotif st.users a ⟨nid, "task_assigned", assignedNotifText u.name t.title, tid⟩
      else st.users
    | none => st.users
  ({ st with tasks := st.tasks ++ [t], users := users' }, t)

/-- Body of `PATCH /api/tasks/:id`: the handler copies the whole body into a
`$set` update and deletes only `_id`, so every stored field — the scope
fields included — can appear in the patch. -/
structure TaskPatch where
  title : Option String
  assignee : Option (Option String)
  done : Option Bool
  groupId : Option (Option String)
  ownerId : Option (Option String)
  creatorId : Option String
  extra : List (String × String)
  deriving Repr, DecidableEq

/-- `$set` one extra field: overwrite the key when present, append otherwise. -/
def setField (l : List (String × String)) (k v : String) : List (String × String) :=
  if l.any (fun kv => kv.1 == k) then
    l.map (fun kv => if kv.1 == k then (k, v) else kv)
  else l ++ [(k, v)]

def mergeFields (l p : List (String × String)) : List (String × String) :=
  p.foldl (fun acc kv => setField acc kv.1 kv.2) l

def applyTaskPatch (t : Task) (p : TaskPatch) : Task :=
  { t with
    title := p.title.getD t.title
    assignee := p.assignee.getD t.assignee
    done := p.done.getD t.done
    groupId := p.groupId.getD t.groupId
    ownerId := p.ownerId.getD t.ownerId
    creatorId := p.creatorId.getD t.creatorId
    extra := mergeFields t.extra p.extra }

def doneNotifText (actorName title : String) : String :=
  "✅ " ++ actorName ++ " hat „" ++ title ++ "\" erledigt!"

/-- `PATCH /api/tasks/:id`: 404 when the id is absent; otherwise `$set` the
body (sans `_id`) on the task, and when the patch carries `done: true` and
the pre-patch task has a truthy `creatorId` different from the actor, push
one `task_done` notification to the creator's mailbox (consuming a fresh
notification id). -/
def updateTask (st : DB) (actor : User) (tid : String) (p : TaskPatch) (nid : String) :
    Except ApiError DB :=
  match findTaskById st tid with
  | none => .error (.notFound "Nicht gefunden")
  | some t =>
    let tasks' := st.tasks.map (fun x => if x.id == tid then applyTaskPatch x p else x)
    let users' :=
      if p.done == some true && t.creatorId != "" && t.creatorId != actor.id then
        pushNotif st.users t.creatorId ⟨nid, "task_done", doneNotifText actor.name t.title, tid⟩
      else st.users
    .ok { st with tasks := tasks', users := users' }

/-- `deleteOne({_id: tid})`: remove the (unique) document with that id;
a miss removes nothing. -/
def deleteFirstTask : List Task → String → List Task
  | [], _ => []
  | t :: ts, tid => if t.id == tid then ts else t :: deleteFirstTask ts tid

/-- Response shape `{ok: true}`. -/
structure OkResp where
  ok : Bool
  deriving Repr, DecidableEq

/-- `DELETE /api/tasks/:id`: unconditionally delete by id and answer
`{ok: true}` — there is no existence check and no 404 branch. -/
def deleteTask (st : DB) (tid : String) : DB × OkResp :=
  ({ st with tasks := deleteFirstTask st.tasks tid }, ⟨true⟩)

/-- A user document as serialized into the poll digest: the projection
`{token: 0, notifications: 0}` of the stored fields. -/
structure PollUser where
  id : String
  name : String
  color : String
  photo : Option String
  groupId : Option String
  solo : Bool
  colorOverrides : List (String × String)
  theme : String
  deriving Repr, DecidableEq

def stripPollUser (u : User) : PollUser :=
  ⟨u.id, u.name, u.color, u.photo, u.groupId, u.solo, u.colorOverrides, u.theme⟩

/-- The user documents entering the poll digest: the caller's group mates
(`{groupId: u.groupId}`) or the caller alone, with `token` and
`notifications` projected away. -/
def visibleUsers (st : DB) (u : User) : List PollUser :=
  let docs : List User :=
    match u.groupId with
    | some gid => st.users.filter (fun v => v.groupId == some gid)
    | none => st.users.filter (fun v => v.id == u.id)
  docs.map stripPollUser

/-- Modelled from the spec: the digest of `GET /api/poll` is
`md5(JSON.stringify(tasks) + JSON.stringify(users))`, where `JSON.stringify`
and the `crypto` md5 are external library primitives; §4.4 requires of the
digest only determinism and sensitivity to any content change of its input,
so the composite serialize-then-hash is modelled as the canonical injective
fingerprint of that input: the pair of the scope-filtered task list and the
projected visible-user list. -/
structure Fingerprint where
  taskPart : List Task
  userPart : List PollUser
  deriving Repr, DecidableEq

/-- Response shape of `GET /api/poll`: `{hash, hasNotifications}`. -/
structure PollResp where
  fingerprint : Fingerprint
  hasNotifications : Bool
  deriving Repr, DecidableEq

/-- `GET /api/poll`: digest the scope-filtered tasks and the projected
visible users; `hasNotifications` is `notifications.length > 0` on the
authenticated user's document. -/
def poll (st : DB) (u : User) : PollResp :=
  ⟨⟨listTasks st u, visibleUsers st u⟩, decide (0 < u.notifications.length)⟩

/-- The user-scope invariant of spec §3: at most one of
{active `groupId`, `solo = true`}. -/
def scopeInv (u : User) : Prop :=
  u.groupId.isSome → u.solo = false

instance (u : User) : Decidable (scopeInv u) := by
  unfold scopeInv; infer_instance

/-- Every user document of the store satisfies the user-scope invariant. -/
def allScopeInv (st : DB) : Prop :=
  ∀ v ∈ st.users, scopeInv v

instance (st : DB) : Decidable (allScopeInv st) := by
  unfold allScopeInv; exact List.decidableBAll _ _

/-! ## Concrete fixtures used by witnesses and counterexamples -/

def alice : User :=
  ⟨"u1", "alice", "#6C63FF", none, "tokA", some "g1", false, [], [], "light"⟩

def bob : User :=
  ⟨"u2", "bob", "#6C63FF", none, "tokB", some "g1", false, [], [], "light"⟩

def carol : User :=
  ⟨"u3", "carol", "#6C63FF", none, "tokC", none, true, [], [], "light"⟩

def homeGroup : Group :=
  ⟨"g1", "Home", none, "u1", ["u1", "u2"], "ABCD1234"⟩

def groupTask : Task :=
  ⟨"t2", "Trash", some "u2", false, some "g1", none, "u1", []⟩

def soloTask : Task :=
  ⟨"t1", "Water plants", none, false, none, some "u3", "u3", []⟩

def st0 : DB :=
  ⟨[alice, bob, carol], [homeGroup], [groupTask, soloTask]⟩

def emptyTaskPatch : TaskPatch :=
  ⟨none, none, none, none, none, none, []⟩

def doneTaskPatch : TaskPatch :=
  { emptyTaskPatch with done := some true }

def moveScopePatch : TaskPatch :=
  { emptyTaskPatch with groupId := some (some "g9"), ownerId := some none }

def emptyUserPatch : UserPatch :=
  ⟨none, none, none, none, none, none⟩

def soloTruePatch : UserPatch :=
  { emptyUserPatch with solo := some true }

/-! ## C4 — resolveScope is a pure function of the user's group field -/

/-- C4: `scope(user)` depends only on `user.groupId` (and the user's own id
for the owner shape): a set `groupId` yields the group filter
`{groupId: g}`, an unset one yields the owner filter
`{groupId: null, ownerId: user.id}`; the two shapes are mutually exclusive
(the owner constraint is present exactly when `groupId` is unset); and the
very same function is what task listing and polling filter with. -/
theorem C4_resolveScope_pure (u : User) :
    (∀ g, u.groupId = some g → scope u = ⟨some g, none⟩) ∧
    (u.groupId = none → scope u = ⟨none, some u.id⟩) ∧
    ((scope u).fOwnerId = none ↔ u.groupId.isSome = true) ∧
    (∀ v : User, u.groupId = v.groupId → u.id = v.id → scope u = scope v) ∧
    (∀ st : DB, listTasks st u = st.tasks.filter (fun t => t.matchesFilter (scope u)) ∧
      (poll st u).fingerprint.taskPart = listTasks st u) := by
  refine ⟨?_, ?_, ?_, ?_, fun st => ⟨rfl, rfl⟩⟩
  · intro g hg; simp [scope, hg]
  · intro hg; simp [scope, hg]
  · cases hg : u.groupId <;> simp [scope, hg]
  · intro v hgroup hid
    cases hg : u.groupId <;> simp [scope, hg, ← hgroup, hid]

/-- Witness for C4 at the concrete solo user `carol`. -/
theorem C4_resolveScope_pure_witness :
    carol.groupId = none → scope carol = ⟨none, some carol.id⟩ :=
  (C4_resolveScope_pure carol).2.1

/-! ## C5 — missing task id: PATCH 404s, DELETE answers `{ok}` -/

/-- C5 counterexample: on the empty store, `DELETE /api/tasks/t9` does not
fail with 404 as the claim states — it deletes nothing and reports
`{ok: true}`. -/
theorem C5_counterexample :
    findTaskById ⟨[], [], []⟩ "t9" = none ∧
    deleteTask ⟨[], [], []⟩ "t9" = (⟨[], [], []⟩, ⟨true⟩) := by
  decide

/-- A `deleteOne` whose id matches no document leaves the collection
unchanged. -/
theorem deleteFirstTask_eq_of_forall : ∀ (l : List Task) (tid : String),
    (∀ t ∈ l, (t.id == tid) = false) → deleteFirstTask l tid = l
  | [], _, _ => rfl
  | x :: xs, tid, hl => by
    have hx : (x.id == tid) = false := hl x (by simp)
    have hxs := deleteFirstTask_eq_of_forall xs tid (fun t ht => hl t (by simp [ht]))
    simp [deleteFirstTask, hx, hxs]

/-- C5 amended: for a task id absent from the store, `PATCH /api/tasks/:id`
fails with a 404 error response, while `DELETE /api/tasks/:id` performs no
existence check: it leaves the store unchanged and reports `{ok: true}`. -/
theorem C5_amended (st : DB) (actor : User) (tid nid : String) (p : TaskPatch)
    (h : findTaskById st tid = none) :
    updateTask st actor tid p nid = .error (.notFound "Nicht gefunden") ∧
    (ApiError.notFound "Nicht gefunden").status = 404 ∧
    deleteTask st tid = (st, ⟨true⟩) := by
  refine ⟨by simp [updateTask, h], rfl, ?_⟩
  have hall : ∀ t ∈ st.tasks, (t.id == tid) = false := by
    intro t ht
    have := List.find?_eq_none.mp h t ht
    simpa using this
  simp [deleteTask, deleteFirstTask_eq_of_forall st.tasks tid hall]

/-- Witness for C5 at the concrete store `st0` and the absent id `t9`. -/
theorem C5_amended_witness :
    updateTask st0 alice "t9" emptyTaskPatch "n1" = .error (.notFound "Nicht gefunden") ∧
    (ApiError.notFound "Nicht gefunden").status = 404 ∧
    deleteTask st0 "t9" = (st0, ⟨true⟩) :=
  C5_amended st0 alice "t9" "n1" emptyTaskPatch (by decide)

/-! ## C1 — creator leave/delete versus the member count -/

/-- C1 counterexample: in `st0` the group `Home` has two members and `alice`
is its creator, yet `DELETE /api/groups/mine` by `alice` succeeds and removes
the group — refuting the claim that for a group with more than one member the
creator's delete does not remove the group. -/
theorem C1_counterexample :
    1 < homeGroup.memberIds.length ∧
    homeGroup.creatorId = alice.id ∧
    alice.groupId = some homeGroup.id ∧
    (deleteGroupMine st0 alice).toOption.map (fun s => findGroupById s homeGroup.id) =
      some none := by
  decide

/-- A group survives `deleteOne` only if its id differs, so the deleted id is
no longer findable. -/
theorem find?_filter_ne_id (l : List Group) (gid : String) :
    (l.filter (fun x => x.id != gid)).find? (fun x => x.id == gid) = none := by
  apply List.find?_eq_none.mpr
  intro x hx
  rcases List.mem_filter.mp hx with ⟨-, hne⟩
  simpa using hne

/-- C1 amended: a creator can **leave** their group iff
`memberIds.length == 1` (leave fails 400 while other members remain, and
succeeds once the creator is the sole member), but the creator's **delete**
succeeds and removes the group regardless of the member count — the delete
handler checks only that the caller is the creator. -/
theorem C1_amended (st : DB) (u : User) (g : Group)
    (hu : u.groupId = some g.id) (hg : findGroupById st g.id = some g)
    (hc : g.creatorId = u.id) :
    (1 < g.memberIds.length →
      leaveGroup st u = .error (.badRequest "Zuerst Gruppe löschen.")) ∧
    (g.memberIds.length = 1 → ∃ st', leaveGroup st u = .ok st') ∧
    (∃ st', deleteGroupMine st u = .ok st') ∧
    (∀ st', deleteGroupMine st u = .ok st' → findGroupById st' g.id = none) := by
  have hbeq : (g.creatorId == u.id) = true := by simp [hc]
  have hok : deleteGroupMine st u =
      .ok { users := st.users.map (fun v =>
              if g.memberIds.contains v.id then { v with groupId := none } else v),
            groups := st.groups.filter (fun x => x.id != g.id),
            tasks := st.tasks.filter (fun t => t.groupId != some g.id) } := by
    simp [deleteGroupMine, hu, hg, hc]
  refine ⟨?_, ?_, ⟨_, hok⟩, ?_⟩
  · intro hlen
    simp [leaveGroup, hu, hg, hbeq, hlen]
  · intro hlen
    simp only [leaveGroup, hu, hg, hbeq, hlen]
    exact ⟨_, rfl⟩
  · intro st' heq
    rw [hok] at heq
    cases heq
    exact find?_filter_ne_id st.groups g.id

/-- Witness for C1 at the concrete store `st0`, where `alice` is the creator
of the two-member group `Home`. -/
theorem C1_amended_witness :
    (1 < homeGroup.memberIds.length →
      leaveGroup st0 alice = .error (.badRequest "Zuerst Gruppe löschen.")) ∧
    (homeGroup.memberIds.length = 1 → ∃ st', leaveGroup st0 alice = .ok st') ∧
    (∃ st', deleteGroupMine st0 alice = .ok st') ∧
    (∀ st', deleteGroupMine st0 alice = .ok st' →
      findGroupById st' homeGroup.id = none) :=
  C1_amended st0 alice homeGroup (by decide) (by decide) (by decide)

/-! ## C2 — task scope stamped at creation, mutability under PATCH -/

/-- C2 counterexample: the solo task `t1` is scoped `{groupId: null,
ownerId: u3}`, yet a `PATCH /api/tasks/t1` whose body carries `groupId` and
`ownerId` rewrites both scope fields — refuting the claim that no updateTask
patch ever changes them. -/
theorem C2_counterexample :
    findTaskById st0 "t1" = some soloTask ∧
    soloTask.groupId = none ∧ soloTask.ownerId = some "u3" ∧
    (updateTask st0 carol "t1" moveScopePatch "n1").toOption.map
        (fun s => (findTaskById s "t1").map (fun t => (t.groupId, t.ownerId))) =
      some (some (some "g9", none)) := by
  decide

def plainFields : TaskFields := ⟨"Trash", none, false, none, none, []⟩

/-- C2 amended: a task's scope fields are stamped at creation to match the
creator's scope at that moment (`groupId` from `scope(user)`, and for solo
creators `ownerId = user.id`); the PATCH handler strips only `_id` from an
incoming patch, so a patch that carries no scope field leaves every task's
scope fields unchanged — but a patch carrying them rewrites them (the
counterexample). -/
theorem C2_amended (st : DB) (u actor : User) (b : TaskFields) (p : TaskPatch)
    (tid nid tid' nid' : String) (st' : DB)
    (hpG : p.groupId = none) (hpO : p.ownerId = none)
    (hup : updateTask st actor tid' p nid' = .ok st') :
    (createTask st u b tid nid).2.groupId = (scope u).fGroupId ∧
    (createTask st u b tid nid).2.creatorId = u.id ∧
    (u.groupId = none → (createTask st u b tid nid).2.ownerId = some u.id) ∧
    (∀ g, u.groupId = some g → (createTask st u b tid nid).2.groupId = some g) ∧
    st'.tasks.map Task.groupId = st.tasks.map Task.groupId ∧
    st'.tasks.map Task.ownerId = st.tasks.map Task.ownerId := by
  have hcreate :
      (createTask st u b tid nid).2.groupId = (scope u).fGroupId ∧
      (createTask st u b tid nid).2.creatorId = u.id ∧
      (u.groupId = none → (createTask st u b tid nid).2.ownerId = some u.id) ∧
      (∀ g, u.groupId = some g → (createTask st u b tid nid).2.groupId = some g) := by
    refine ⟨rfl, rfl, ?_, ?_⟩
    · intro h; simp [createTask, scope, h]
    · intro g h; simp [createTask, scope, h]
  rcases hfind : findTaskById st tid' with _ | t
  · simp [updateTask, hfind] at hup
  · simp only [updateTask, hfind] at hup
    rw [Except.ok.injEq] at hup
    subst hup
    refine ⟨hcreate.1, hcreate.2.1, hcreate.2.2.1, hcreate.2.2.2, ?_, ?_⟩
    · show (st.tasks.map fun x =>
          if x.id == tid' then applyTaskPatch x p else x).map Task.groupId =
        st.tasks.map Task.groupId
      rw [List.map_map]
      apply List.map_congr_left
      intro x _
      by_cases hx : (x.id == tid') = true <;>
        simp [Function.comp, hx, applyTaskPatch, hpG]
    · show (st.tasks.map fun x =>
          if x.id == tid' then applyTaskPatch x p else x).map Task.ownerId =
        st.tasks.map Task.ownerId
      rw [List.map_map]
      apply List.map_congr_left
      intro x _
      by_cases hx : (x.id == tid') = true <;>
        simp [Function.comp, hx, applyTaskPatch, hpO]

/-- Witness for C2 at `st0`: `carol` creates a solo task, and a patch with no
scope fields leaves every task's scope unchanged. -/
theorem C2_amended_witness :
    (createTask st0 carol plainFields "t7" "n7").2.groupId = (scope carol).fGroupId ∧
    (createTask st0 carol plainFields "t7" "n7").2.creatorId = carol.id ∧
    (carol.groupId = none →
      (createTask st0 carol plainFields "t7" "n7").2.ownerId = some carol.id) ∧
    (∀ g, carol.groupId = some g →
      (createTask st0 carol plainFields "t7" "n7").2.groupId = some g) ∧
    st0.tasks.map Task.groupId = st0.tasks.map Task.groupId ∧
    st0.tasks.map Task.ownerId = st0.tasks.map Task.ownerId :=
  C2_amended st0 carol carol plainFields emptyTaskPatch "t7" "n7" "t1" "n1" st0
    (by decide) (by decide) (by decide)

/-! ## C3 — bearer-token exposure -/

def emptyDB : DB := ⟨[], [], []⟩

/-- The store right after the signup login created `alice`. -/
def signedUp : DB := ⟨[newUser "alice" "secret-tok" "u1"], [], []⟩

/-- C3 counterexample: after `alice`'s account has been created (first
login), a **later** `POST /api/users/login` request with the same username
answers with `alice`'s bearer token in its body — refuting the claim that no
response after creation ever contains the token. -/
theorem C3_counterexample :
    login emptyDB "alice" "secret-tok" "u1" =
      .ok (signedUp, ⟨"secret-tok", "u1", true⟩) ∧
    (login signedUp "alice" "other-tok" "u9").toOption.map
        (fun r => r.2.token) = some "secret-tok" := by
  decide

/-- The destructuring `const { token: _t, ...user }` leaves no `token` field
in a serialized user. -/
theorem safeUserFields_lookup_token (u : User) :
    (safeUserFields u).lookup "token" = none := by
  simp [safeUserFields, List.lookup]

/-- Both branches of the post-update re-fetch serialize without a `token`
field. -/
theorem lookup_token_matchOpt (o : Option User) :
    (match o with
      | some w => safeUserFields w
      | none => ([] : List (String × String))).lookup "token" = none := by
  cases o with
  | none => rfl
  | some w => exact safeUserFields_lookup_token w

/-- C3 amended: `POST /api/users/login` answers with the named user's bearer
token on **every** call — at account creation and on each subsequent login
with that username — while the user-returning endpoints
(`GET /api/users/me`, `PATCH /api/users/me`, `GET /api/users`) strip the
`token` field from every user document they serialize. -/
theorem C3_amended (st st2 : DB) (uname : String) (u v : User)
    (tok uid : String) (r : LoginResp) (p : UserPatch)
    (hfound : findUserByName st (jsTrim uname) = some u)
    (hlogin : login st uname tok uid = .ok (st2, r)) :
    r.token = u.token ∧
    (meResponse v).lookup "token" = none ∧
    ((updateMe st v p).2).lookup "token" = none ∧
    (∀ fields ∈ listUsers st v, fields.lookup "token" = none) := by
  refine ⟨?_, safeUserFields_lookup_token v, ?_, ?_⟩
  · by_cases htrim : jsTrim uname = ""
    · simp [login, htrim] at hlogin
    · simp [login, htrim, hfound] at hlogin
      rcases hlogin with ⟨-, rfl⟩
      rfl
  · exact lookup_token_matchOpt _
  · intro fields hmem
    unfold listUsers at hmem
    rcases hv : v.groupId with _ | gid
    · simp only [hv, List.mem_singleton] at hmem
      rw [hmem]
      exact safeUserFields_lookup_token v
    · simp only [hv] at hmem
      rcases hgrp : findGroupById st gid with _ | g
      · simp [hgrp] at hmem
      · simp only [hgrp] at hmem
        rcases List.mem_map.mp hmem with ⟨w, -, hw⟩
        rw [← hw]
        exact safeUserFields_lookup_token w

/-- Witness for C3 at the concrete store `st0`: a later login as `alice`
returns her stored token, and `bob`'s user-returning responses carry no
`token` field. -/
theorem C3_amended_witness :
    (⟨"tokA", "u1", false⟩ : LoginResp).token = alice.token ∧
    (meResponse bob).lookup "token" = none ∧
    ((updateMe st0 bob emptyUserPatch).2).lookup "token" = none ∧
    (∀ fields ∈ listUsers st0 bob, fields.lookup "token" = none) :=
  C3_amended st0 st0 "alice" alice bob "x-tok" "x-id" ⟨"tokA", "u1", false⟩
    emptyUserPatch (by decide) (by decide)

/-! ## C6 — task_done notification on marking a task done -/

/-- C6: when a `PATCH /api/tasks/:id` whose patch carries `done: true` hits an
existing task with a truthy creator, then: if the actor is not the creator,
the resulting store appends exactly one `task_done` notification (referencing
that task id) to the mailbox of every user document whose id is the creator's
— i.e. the creator's document — and leaves every other mailbox unchanged; if
the actor **is** the creator, every mailbox is left unchanged. -/
theorem C6_done_notification (st : DB) (actor : User) (tid nid : String)
    (p : TaskPatch) (t : Task)
    (ht : findTaskById st tid = some t) (hd : p.done = some true)
    (hcid : t.creatorId ≠ "") :
    (t.creatorId ≠ actor.id →
      updateTask st actor tid p nid =
        .ok { st with
          tasks := st.tasks.map (fun x => if x.id == tid then applyTaskPatch x p else x),
          users := st.users.map (fun v =>
            if v.id == t.creatorId then
              { v with notifications := v.notifications ++
                  [⟨nid, "task_done", doneNotifText actor.name t.title, tid⟩] }
            else v) }) ∧
    (t.creatorId = actor.id →
      updateTask st actor tid p nid =
        .ok { st with
          tasks := st.tasks.map (fun x => if x.id == tid then applyTaskPatch x p else x) }) := by
  constructor
  · intro hne
    simp [updateTask, ht, hd, hcid, hne, pushNotif]
  · intro heq
    simp [updateTask, ht, hd, heq]

/-- Witness for C6: `bob` (not the creator) marks `alice`'s task `t2` done in
`st0`. -/
theorem C6_done_notification_witness :
    (groupTask.creatorId ≠ bob.id →
      updateTask st0 bob "t2" doneTaskPatch "n9" =
        .ok { st0 with
          tasks := st0.tasks.map (fun x =>
            if x.id == "t2" then applyTaskPatch x doneTaskPatch else x),
          users := st0.users.map (fun v =>
            if v.id == groupTask.creatorId then
              { v with notifications := v.notifications ++
                  [⟨"n9", "task_done", doneNotifText bob.name groupTask.title, "t2"⟩] }
            else v) }) ∧
    (groupTask.creatorId = bob.id →
      updateTask st0 bob "t2" doneTaskPatch "n9" =
        .ok { st0 with
          tasks := st0.tasks.map (fun x =>
            if x.id == "t2" then applyTaskPatch x doneTaskPatch else x) }) :=
  C6_done_notification st0 bob "t2" "n9" doneTaskPatch groupTask
    (by decide) (by decide) (by decide)

/-! ## C7 — task_assigned notification on task creation -/

/-- C7: creating a task with a concrete assignee different from the creator
appends exactly one `task_assigned` notification — referencing the created
task's store id — to the mailbox of every user document with the assignee's
id, and leaves every other mailbox unchanged; when the assignee is unset, the
sentinel `all`, or the creator themself, no mailbox changes.  The created
task is appended to the task collection and carries the fresh id. -/
theorem C7_assigned_notification (st : DB) (u : User) (b : TaskFields)
    (tid nid : String) :
    (∀ a, b.assignee = some a → a ≠ "" → a ≠ "all" → a ≠ u.id →
      (createTask st u b tid nid).1.users =
        st.users.map (fun v =>
          if v.id == a then
            { v with notifications := v.notifications ++
                [⟨nid, "task_assigned", assignedNotifText u.name b.title, tid⟩] }
          else v)) ∧
    ((b.assignee = none ∨ b.assignee = some "all" ∨ b.assignee = some u.id) →
      (createTask st u b tid nid).1.users = st.users) ∧
    (createTask st u b tid nid).1.tasks = st.tasks ++ [(createTask st u b tid nid).2] ∧
    (createTask st u b tid nid).2.id = tid := by
  refine ⟨?_, ?_, rfl, rfl⟩
  · intro a ha h1 h2 h3
    simp [createTask, ha, h1, h2, h3, pushNotif]
  · intro h
    rcases h with h | h | h <;> simp [createTask, h]

def assignFields : TaskFields := ⟨"Trash", some "u2", false, none, none, []⟩

/-- Witness for C7: `alice` creates a task assigned to `bob` in `st0`. -/
theorem C7_assigned_notification_witness :
    (createTask st0 alice assignFields "t8" "n8").1.users =
      st0.users.map (fun v =>
        if v.id == "u2" then
          { v with notifications := v.notifications ++
              [⟨"n8", "task_assigned", assignedNotifText alice.name assignFields.title, "t8"⟩] }
        else v) :=
  (C7_assigned_notification st0 alice assignFields "t8" "n8").1 "u2"
    (by decide) (by decide) (by decide) (by decide)

/-! ## C10 — frame of account deletion on the task store -/

/-- C10: when `DELETE /api/users/me` succeeds, the surviving task store is
exactly the old one minus the tasks with `assignee = uid` and
`groupId = u.groupId || null`: every task not matching that filter — in
particular every task the user merely owns or created without being its
assignee — is still present, no task appears from nowhere, and the user's
own document is gone. -/
theorem C10_account_deletion_frame (st : DB) (u : User) (st' : DB)
    (h : deleteMe st u = .ok st') :
    st'.tasks = st.tasks.filter (fun t =>
      !(t.assignee == some u.id && t.groupId == jsOrNull u.groupId)) ∧
    (∀ t ∈ st.tasks, ¬(t.assignee = some u.id ∧ t.groupId = jsOrNull u.groupId) →
      t ∈ st'.tasks) ∧
    (∀ t ∈ st.tasks, t.ownerId = some u.id → t.assignee ≠ some u.id → t ∈ st'.tasks) ∧
    (∀ t ∈ st'.tasks, t ∈ st.tasks) ∧
    (∀ v ∈ st'.users, v.id ≠ u.id) := by
  rcases hgs : deleteMeGroupStep st u with e | gs
  · simp [deleteMe, hgs] at h
  · simp only [deleteMe, hgs] at h
    rw [Except.ok.injEq] at h
    subst h
    refine ⟨rfl, ?_, ?_, ?_, ?_⟩
    · intro t ht hne
      apply List.mem_filter.mpr
      refine ⟨ht, ?_⟩
      simp only [Bool.not_eq_true', Bool.and_eq_false_iff]
      rcases Decidable.em (t.assignee = some u.id) with ha | ha
      · right
        have : t.groupId ≠ jsOrNull u.groupId := fun hg => hne ⟨ha, hg⟩
        simpa using this
      · left
        simpa using ha
    · intro t ht _ hna
      apply List.mem_filter.mpr
      refine ⟨ht, ?_⟩
      simp only [Bool.not_eq_true', Bool.and_eq_false_iff]
      left
      simpa using hna
    · intro t ht
      exact List.mem_of_mem_filter ht
    · intro v hv
      have := (List.mem_filter.mp hv).2
      simpa using this

/-- The store after `carol` deletes her account in `st0`. -/
def st0carolGone : DB := ⟨[alice, bob], [homeGroup], [groupTask, soloTask]⟩

/-- Witness for C10: the solo user `carol` deletes her account in `st0`; her
owned-but-unassigned task `t1` survives. -/
theorem C10_account_deletion_frame_witness :
    st0carolGone.tasks = st0.tasks.filter (fun t =>
      !(t.assignee == some carol.id && t.groupId == jsOrNull carol.groupId)) ∧
    (∀ t ∈ st0.tasks, ¬(t.assignee = some carol.id ∧ t.groupId = jsOrNull carol.groupId) →
      t ∈ st0carolGone.tasks) ∧
    (∀ t ∈ st0.tasks, t.ownerId = some carol.id → t.assignee ≠ some carol.id →
      t ∈ st0carolGone.tasks) ∧
    (∀ t ∈ st0carolGone.tasks, t ∈ st0.tasks) ∧
    (∀ v ∈ st0carolGone.users, v.id ≠ carol.id) :=
  C10_account_deletion_frame st0 carol st0carolGone (by decide)

/-! ## C8 — the user-scope invariant under the operations -/

/-- C8 counterexample: `alice` is in group `g1` (so `scopeInv` holds of her
document), yet `PATCH /api/users/me` with body `{solo: true}` — `solo` is an
allowed patch key and the handler checks nothing — produces a user document
with an active `groupId` **and** `solo = true`, the combination the claim
says no operation can create. -/
theorem C8_counterexample :
    scopeInv alice ∧ alice.groupId = some "g1" ∧
    ((updateMe st0 alice soloTruePatch).1.users.find? (fun v => v.id == "u1")).map
        (fun v => (v.groupId, v.solo)) = some (some "g1", true) ∧
    ¬ allScopeInv (updateMe st0 alice soloTruePatch).1 := by
  decide

/-- Mapping a user-document transformer that preserves the invariant
preserves it store-wide. -/
theorem allInv_map (users : List User) (f : User → User)
    (hf : ∀ v ∈ users, scopeInv v → scopeInv (f v))
    (h : ∀ v ∈ users, scopeInv v) :
    ∀ v ∈ users.map f, scopeInv v := by
  intro v hv
  rcases List.mem_map.mp hv with ⟨w, hw, rfl⟩
  exact hf w hw (h w hw)

/-- A `$push` to a mailbox never touches `groupId`/`solo`. -/
theorem allInv_pushNotif (users : List User) (uid : String) (n : Notification)
    (h : ∀ v ∈ users, scopeInv v) :
    ∀ v ∈ pushNotif users uid n, scopeInv v := by
  apply allInv_map
  · intro v _ hv
    by_cases hid : (v.id == uid) = true <;>
      simpa [hid, scopeInv] using hv
  · exact h

/-- C8 amended: starting from a store whose user documents all satisfy the
user-scope invariant (never an active `groupId` together with `solo = true`),
every operation preserves it — except `PATCH /api/users/me`, which preserves
it only under the side condition that a patch carrying `solo: true` targets a
user without an active `groupId` (the counterexample shows the condition is
necessary). -/
theorem C8_amended (st : DB) (hinv : allScopeInv st) :
    (∀ uname tok uid st' r, login st uname tok uid = .ok (st', r) → allScopeInv st') ∧
    (∀ u name photo gid code st' g,
      createGroup st u name photo gid code = .ok (st', g) → allScopeInv st') ∧
    (∀ u code st' g, joinGroup st u code = .ok (st', g) → allScopeInv st') ∧
    (∀ u st', leaveGroup st u = .ok st' → allScopeInv st') ∧
    (∀ u st', deleteGroupMine st u = .ok st' → allScopeInv st') ∧
    (∀ u st', deleteMe st u = .ok st' → allScopeInv st') ∧
    (∀ u p st', updateGroupMine st u p = .ok st' → allScopeInv st') ∧
    (∀ u b tid nid, allScopeInv (createTask st u b tid nid).1) ∧
    (∀ actor tid p nid st', updateTask st actor tid p nid = .ok st' → allScopeInv st') ∧
    (∀ tid, allScopeInv (deleteTask st tid).1) ∧
    (∀ u p, (p.solo = some true → ∀ v ∈ st.users, v.id = u.id → v.groupId = none) →
      allScopeInv (updateMe st u p).1) := by
  refine ⟨?_, ?_, ?_, ?_, ?_, ?_, ?_, ?_, ?_, ?_, ?_⟩
  · intro uname tok uid st' r hl
    by_cases htrim : jsTrim uname = ""
    · simp [login, htrim] at hl
    · rcases hf : findUserByName st (jsTrim uname) with _ | w
      · have heq : login st uname tok uid =
            .ok ({ st with users := st.users ++ [newUser (jsTrim uname) tok uid] },
                 ⟨tok, uid, true⟩) := by
          simp [login, htrim, hf]
        rw [heq, Except.ok.injEq, Prod.mk.injEq] at hl
        obtain ⟨h1, -⟩ := hl
        subst h1
        intro v hv
        rcases List.mem_append.mp hv with hv | hv
        · exact hinv v hv
        · rw [List.mem_singleton.mp hv]
          simp [scopeInv, newUser]
      · have heq : login st uname tok uid =
            .ok (st, ⟨w.token, w.id, w.groupId.isNone && !w.solo⟩) := by
          simp [login, htrim, hf]
        rw [heq, Except.ok.injEq, Prod.mk.injEq] at hl
        obtain ⟨h1, -⟩ := hl
        subst h1
        exact hinv
  · intro u name photo gid code st' g hc
    by_cases hn : jsTrim name = ""
    · simp [createGroup, hn] at hc
    · simp only [createGroup, hn, if_false, ite_false, reduceIte] at hc
      rw [Except.ok.injEq, Prod.mk.injEq] at hc
      obtain ⟨h1, -⟩ := hc
      subst h1
      intro v hv
      refine allInv_map st.users _ ?_ hinv v hv
      intro w _ hw
      by_cases hid : (w.id == u.id) = true
      · simp [hid, scopeInv]
      · simpa [hid] using hw
  · intro u code st' g hj
    rcases hf : findGroupByCode st (jsToUpper code) with _ | g0
    · simp [joinGroup, hf] at hj
    · simp only [joinGroup, hf] at hj
      rw [Except.ok.injEq, Prod.mk.injEq] at hj
      obtain ⟨h1, -⟩ := hj
      subst h1
      intro v hv
      refine allInv_map st.users _ ?_ hinv v hv
      intro w _ hw
      by_cases hid : (w.id == u.id) = true
      · simp [hid, scopeInv]
      · simpa [hid] using hw
  · intro u st' hl
    rcases hg : u.groupId with _ | gid
    · simp [leaveGroup, hg] at hl
    · simp only [leaveGroup, hg] at hl
      split at hl
      · simp at hl
      · rw [Except.ok.injEq] at hl
        subst hl
        intro v hv
        refine allInv_map st.users _ ?_ hinv v hv
        intro w _ hw
        by_cases hid : (w.id == u.id) = true
        · simp [hid, scopeInv]
        · simpa [hid] using hw
  · intro u st' hd
    rcases hg : u.groupId with _ | gid
    · simp [deleteGroupMine, hg] at hd
    · simp only [deleteGroupMine, hg] at hd
      rcases hf : findGroupById st gid with _ | g0
      · rw [hf] at hd; simp at hd
      · rw [hf] at hd
        simp only [] at hd
        split at hd
        · simp at hd
        · rw [Except.ok.injEq] at hd
          subst hd
          intro v hv
          refine allInv_map st.users _ ?_ hinv v hv
          intro w _ hw
          by_cases hid : w.id ∈ g0.memberIds
          · simp [hid, scopeInv]
          · simpa [hid] using hw
  · intro u st' hd
    rcases hgs : deleteMeGroupStep st u with e | gs
    · simp [deleteMe, hgs] at hd
    · simp only [deleteMe, hgs] at hd
      rw [Except.ok.injEq] at hd
      subst hd
      intro v hv
      exact hinv v (List.mem_of_mem_filter hv)
  · intro u p st' hup
    rcases hg : u.groupId with _ | gid
    · simp [updateGroupMine, hg] at hup
    · simp only [updateGroupMine, hg] at hup
      rcases hf : findGroupById st gid with _ | g0
      · rw [hf] at hup; simp at hup
      · rw [hf] at hup
        simp only [] at hup
        split at hup
        · simp at hup
        · rw [Except.ok.injEq] at hup
          subst hup
          exact hinv
  · intro u b tid nid
    intro v hv
    simp only [createTask] at hv
    rcases ha : b.assignee with _ | a
    · rw [ha] at hv
      exact hinv v hv
    · rw [ha] at hv
      simp only [] at hv
      split at hv
      · exact allInv_pushNotif st.users a _ hinv v hv
      · exact hinv v hv
  · intro actor tid p nid st' hup
    rcases hf : findTaskById st tid with _ | t
    · simp [updateTask, hf] at hup
    · simp only [updateTask, hf] at hup
      rw [Except.ok.injEq] at hup
      subst hup
      intro v hv
      simp only [] at hv
      split at hv
      · exact allInv_pushNotif st.users t.creatorId _ hinv v hv
      · exact hinv v hv
  · intro tid v hv
    exact hinv v hv
  · intro u p hsolo v hv
    simp only [updateMe] at hv
    rcases List.mem_map.mp hv with ⟨w, hw, rfl⟩
    by_cases hid : (w.id == u.id) = true
    · rw [if_pos hid]
      rcases hps : p.solo with _ | sv
      · simpa [applyUserPatch, hps, scopeInv] using hinv w hw
      · cases sv
        · simp [applyUserPatch, hps, scopeInv]
        · have hwg : w.groupId = none := hsolo hps w hw (by simpa using hid)
          simp [applyUserPatch, hps, scopeInv, hwg]
    · rw [if_neg hid]
      exact hinv w hw

/-- Witness for C8: the concrete store `st0` satisfies the invariant, so the
preservation theorem applies to it. -/
theorem C8_amended_witness :
    (∀ uname tok uid st' r, login st0 uname tok uid = .ok (st', r) → allScopeInv st') ∧
    (∀ u name photo gid code st' g,
      createGroup st0 u name photo gid code = .ok (st', g) → allScopeInv st') ∧
    (∀ u code st' g, joinGroup st0 u code = .ok (st', g) → allScopeInv st') ∧
    (∀ u st', leaveGroup st0 u = .ok st' → allScopeInv st') ∧
    (∀ u st', deleteGroupMine st0 u = .ok st' → allScopeInv st') ∧
    (∀ u st', deleteMe st0 u = .ok st' → allScopeInv st') ∧
    (∀ u p st', updateGroupMine st0 u p = .ok st' → allScopeInv st') ∧
    (∀ u b tid nid, allScopeInv (createTask st0 u b tid nid).1) ∧
    (∀ actor tid p nid st', updateTask st0 actor tid p nid = .ok st' → allScopeInv st') ∧
    (∀ tid, allScopeInv (deleteTask st0 tid).1) ∧
    (∀ u p, (p.solo = some true → ∀ v ∈ st0.users, v.id = u.id → v.groupId = none) →
      allScopeInv (updateMe st0 u p).1) :=
  C8_amended st0 (by decide)

/-! ## C9 — poll fingerprint stability and sensitivity -/

/-- The task a `POST /api/tasks` inserts matches its creator's scope. -/
theorem createTask_matches_scope (st : DB) (c : User) (b : TaskFields) (tid nid : String) :
    ((createTask st c b tid nid).2).matchesFilter (scope c) = true := by
  rcases h : c.groupId with _ | g <;>
    simp [createTask, scope, h, Task.matchesFilter]

/-- After an in-place `$set` that genuinely changes a task, the pre-patch
version of that task is no longer in the store (task ids are unique). -/
theorem not_mem_map_update (l : List Task) (tid : String) (p : TaskPatch) (t : Task)
    (hnd : (l.map Task.id).Nodup) (htid : t.id = tid) (hne : applyTaskPatch t p ≠ t)
    (hmem : t ∈ l) :
    t ∉ l.map (fun x => if x.id == tid then applyTaskPatch x p else x) := by
  intro hc
  rcases List.mem_map.mp hc with ⟨x, hx, hfx⟩
  by_cases hxid : (x.id == tid) = true
  · rw [if_pos hxid] at hfx
    have hxt : x = t := by
      apply List.inj_on_of_nodup_map hnd hx hmem
      rw [beq_iff_eq] at hxid
      rw [hxid, htid]
    rw [hxt] at hfx
    exact hne hfx
  · rw [if_neg hxid] at hfx
    subst hfx
    exact hxid (beq_iff_eq.mpr htid)

/-- After `deleteOne` on a unique id, the deleted task is gone. -/
theorem not_mem_deleteFirstTask : ∀ (l : List Task) (tid : String) (t : Task),
    (l.map Task.id).Nodup → t.id = tid → t ∉ deleteFirstTask l tid
  | [], tid, t, _, _ => by simp [deleteFirstTask]
  | x :: xs, tid, t, hnd, htid => by
    have hcons : (x.id :: xs.map Task.id).Nodup := hnd
    rcases List.nodup_cons.mp hcons with ⟨hnotin, hndtail⟩
    by_cases hx : (x.id == tid) = true
    · simp only [deleteFirstTask, if_pos hx]
      intro hc
      have hxid : x.id = tid := beq_iff_eq.mp hx
      have hin : t.id ∈ xs.map Task.id := List.mem_map_of_mem Task.id hc
      rw [htid, ← hxid] at hin
      exact hnotin hin
    · simp only [deleteFirstTask, if_neg hx]
      intro hc
      rcases List.mem_cons.mp hc with rfl | hc
      · exact hx (beq_iff_eq.mpr htid)
      · exact not_mem_deleteFirstTask xs tid t hndtail htid hc

/-- C9: for the authenticated user, (a) the poll digest is a deterministic
function of the visible tasks and visible members — two polls with no visible
change return the identical fingerprint; (b) `hasNotifications` is true
exactly when the mailbox is non-empty; and the fingerprint differs after (c)
a task is created in the user's scope, (d) a visible task is updated so that
some field actually changes (ids unique), or (e) a visible task is deleted
(ids unique). -/
theorem C9_poll (u : User) :
    (∀ st st2 : DB, listTasks st u = listTasks st2 u →
      visibleUsers st u = visibleUsers st2 u →
      (poll st u).fingerprint = (poll st2 u).fingerprint) ∧
    (∀ st : DB, (poll st u).hasNotifications = true ↔ u.notifications ≠ []) ∧
    (∀ (st : DB) (c : User) (b : TaskFields) (tid nid : String), scope c = scope u →
      (poll (createTask st c b tid nid).1 u).fingerprint ≠ (poll st u).fingerprint) ∧
    (∀ (st : DB) (actor : User) (tid : String) (p : TaskPatch) (nid : String)
      (st' : DB) (t : Task), findTaskById st tid = some t →
      t.matchesFilter (scope u) = true → applyTaskPatch t p ≠ t →
      (st.tasks.map Task.id).Nodup → updateTask st actor tid p nid = .ok st' →
      (poll st' u).fingerprint ≠ (poll st u).fingerprint) ∧
    (∀ (st : DB) (tid : String) (t : Task), findTaskById st tid = some t →
      t.matchesFilter (scope u) = true → (st.tasks.map Task.id).Nodup →
      (poll (deleteTask st tid).1 u).fingerprint ≠ (poll st u).fingerprint) := by
  refine ⟨?_, ?_, ?_, ?_, ?_⟩
  · intro st st2 h1 h2
    simp [poll, h1, h2]
  · intro st
    simp [poll, List.length_pos]
  · intro st c b tid nid hsc
    have hmatch : ((createTask st c b tid nid).2).matchesFilter (scope u) = true := by
      rw [← hsc]; exact createTask_matches_scope st c b tid nid
    have hsplit : listTasks (createTask st c b tid nid).1 u =
        listTasks st u ++ [(createTask st c b tid nid).2] := by
      show List.filter (fun x => x.matchesFilter (scope u))
          (st.tasks ++ [(createTask st c b tid nid).2]) = _
      rw [List.filter_append]
      simp [hmatch, listTasks]
    intro hEq
    have hTP : listTasks (createTask st c b tid nid).1 u = listTasks st u :=
      congrArg Fingerprint.taskPart hEq
    rw [hsplit] at hTP
    have hlen := congrArg List.length hTP
    simp at hlen
  · intro st actor tid p nid st' t hf hm hne hnd hup
    have htid : t.id = tid := by simpa using List.find?_some hf
    have hmem : t ∈ st.tasks := List.mem_of_find?_eq_some hf
    simp only [updateTask, hf] at hup
    rw [Except.ok.injEq] at hup
    subst hup
    intro hEq
    have hTP := congrArg Fingerprint.taskPart hEq
    have hIn : t ∈ (poll st u).fingerprint.taskPart := List.mem_filter.mpr ⟨hmem, hm⟩
    rw [← hTP] at hIn
    have hInTasks := List.mem_of_mem_filter (a := t) hIn
    exact not_mem_map_update st.tasks tid p t hnd htid hne hmem hInTasks
  · intro st tid t hf hm hnd
    have htid : t.id = tid := by simpa using List.find?_some hf
    have hmem : t ∈ st.tasks := List.mem_of_find?_eq_some hf
    intro hEq
    have hTP := congrArg Fingerprint.taskPart hEq
    have hIn : t ∈ (poll st u).fingerprint.taskPart := List.mem_filter.mpr ⟨hmem, hm⟩
    rw [← hTP] at hIn
    have hInTasks := List.mem_of_mem_filter (a := t) hIn
    exact not_mem_deleteFirstTask st.tasks tid t hnd htid hInTasks

/-- Witness for C9: deleting `alice`'s visible task `t2` from `st0` changes
her poll fingerprint. -/
theorem C9_poll_witness :
    (poll (deleteTask st0 "t2").1 alice).fingerprint ≠ (poll st0 alice).fingerprint :=
  (C9_poll alice).2.2.2.2 st0 "t2" groupTask (by decide) (by decide) (by decide)

end TaskFlow
